import Mathlib

/-!
Verification of the section generation / resume / regeneration pipeline of a
text-to-audiobook application.

The development shallowly embeds the orchestration logic of the program:

* `split_text`         — TTSProcessor.split_text   (src/tts_processor.py, lines 131-135)
* the generation pipeline of AudioGenerator        (src/audio_generator.py)
* the playback cursor of AudioPlayer               (src/audio_player.py)
* `get_existing_audio_files` of FileProcessor      (src/file_processor.py, lines 94-107)

External collaborators (the neural TTS engine, the neural voice converter,
the audio codec) are modelled by result oracles together with the file-system
effect their documented contract prescribes: a successful call writes its
output file, an unsuccessful call writes nothing.  Python `Path.rename`,
`Path.unlink` and `Path.exists` are modelled on an explicit file-system state;
`rename` silently replaces an existing destination (POSIX semantics) and
raises when the source is missing, `unlink` raises when the target is missing.
-/

namespace QAM

/-- Python whitespace predicate used by `str.strip()` / `int()`:
space, tab, newline, carriage return, vertical tab, form feed. -/
def pyIsSpace (c : Char) : Bool :=
  c = ' ' || c = '\t' || c = '\n' || c = '\r' || c = '\x0b' || c = '\x0c'

/-- Python `str.strip()` on a character list: drop leading and trailing
whitespace characters. -/
def pyStripL (l : List Char) : List Char :=
  ((l.dropWhile pyIsSpace).reverse.dropWhile pyIsSpace).reverse

/-- Python `str.strip()` on a string. -/
def pyStrip (s : String) : String :=
  String.mk (pyStripL s.data)

/-- Python `text.split("\n\n")`: split at the leftmost non-overlapping
occurrences of two consecutive newline characters.  `"".split` yields one
empty chunk, as in Python. -/
def splitNN : List Char → List (List Char)
  | [] => [[]]
  | [c] => [[c]]
  | c₁ :: c₂ :: rest =>
    if c₁ = '\n' ∧ c₂ = '\n' then
      [] :: splitNN rest
    else
      let r := splitNN (c₂ :: rest)
      (c₁ :: r.headD []) :: r.tail

/-- TTSProcessor.split_text (src/tts_processor.py lines 131-135):
`[section.strip() for section in text.split("\n\n") if section.strip()]` —
split on `"\n\n"`, strip every chunk, keep the non-empty ones, in document
order. -/
def split_text (text : String) : List String :=
  ((((splitNN text.data).map pyStripL).filter (fun l => !l.isEmpty)).map
    fun l => String.mk l)

/-- The section-holding part of the TTSProcessor state (`self.sections`). -/
structure TTSState where
  sections : List String
deriving DecidableEq, Repr

/-- TTSProcessor.split_text as a state transition: `self.sections` is
reassigned to the fresh split, discarding whatever was loaded before; the
section count is returned. -/
def loadSections (_st : TTSState) (text : String) : TTSState × Nat :=
  let secs := split_text text
  (⟨secs⟩, secs.length)

/-- TTSProcessor.get_sections. -/
def get_sections (st : TTSState) : List String :=
  st.sections

/-- TTSProcessor.get_section: 0-based bounds-checked lookup. -/
def get_section (st : TTSState) (index : Nat) : Option String :=
  st.sections[index]?

theorem splitNN_ne_nil (l : List Char) : splitNN l ≠ [] := by
  induction l using splitNN.induct with
  | case1 => simp [splitNN]
  | case2 c => simp [splitNN]
  | case3 c₁ c₂ rest h ih => simp [splitNN, h]
  | case4 c₁ c₂ rest h ih => simp [splitNN, if_neg h]

theorem mem_splitNN_of_mem {l : List Char} {c : Char} (hc : c ∈ l)
    (hn : c ≠ '\n') : ∃ ch ∈ splitNN l, c ∈ ch := by
  induction l using splitNN.induct with
  | case1 => cases hc
  | case2 c₂ =>
    rcases List.mem_singleton.mp hc with rfl
    exact ⟨[c], by simp [splitNN], by simp⟩
  | case3 c₁ c₂ rest h ih =>
    obtain ⟨rfl, rfl⟩ := h
    rcases List.mem_cons.mp hc with rfl | hc2
    · exact absurd rfl hn
    · rcases List.mem_cons.mp hc2 with rfl | hc3
      · exact absurd rfl hn
      · obtain ⟨ch, hch, hcch⟩ := ih hc3
        refine ⟨ch, ?_, hcch⟩
        simp only [splitNN, if_pos (And.intro rfl rfl)]
        exact List.mem_cons_of_mem _ hch
  | case4 c₁ c₂ rest h ih =>
    rcases List.mem_cons.mp hc with rfl | hc2
    · -- c = c₁: it lands in the head chunk
      refine ⟨c :: (splitNN (c₂ :: rest)).headD [], ?_, by simp⟩
      simp [splitNN, if_neg h]
    · -- c ∈ c₂ :: rest: use the induction hypothesis
      obtain ⟨ch, hch, hcch⟩ := ih hc2
      cases hs : splitNN (c₂ :: rest) with
      | nil => exact absurd hs (splitNN_ne_nil _)
      | cons a t =>
        rw [hs] at hch
        rcases List.mem_cons.mp hch with rfl | hcht
        · refine ⟨c₁ :: ch, ?_, List.mem_cons_of_mem _ hcch⟩
          simp [splitNN, if_neg h, hs]
        · refine ⟨ch, ?_, hcch⟩
          simp only [splitNN, if_neg h, hs]
          exact List.mem_cons_of_mem _ (by simpa using hcht)

theorem pyStripL_ne_nil {l : List Char} {c : Char} (hc : c ∈ l)
    (hw : pyIsSpace c = false) : pyStripL l ≠ [] := by
  intro hnil
  unfold pyStripL at hnil
  rw [List.reverse_eq_nil_iff, List.dropWhile_eq_nil_iff] at hnil
  have hd : ∃ x ∈ l.dropWhile pyIsSpace, pyIsSpace x = false := by
    by_contra hall
    push_neg at hall
    have : ∀ x ∈ l, pyIsSpace x = true := by
      intro x hx
      rw [← List.takeWhile_append_dropWhile (p := pyIsSpace) (l := l)] at hx
      rcases List.mem_append.mp hx with h1 | h2
      · exact List.mem_takeWhile_imp h1
      · have := hall x h2
        simpa using this
    have := this c hc
    rw [hw] at this
    cases this
  obtain ⟨x, hx, hxw⟩ := hd
  have := hnil x (List.mem_reverse.mpr hx)
  rw [hxw] at this
  cases this

theorem nonWs_ne_newline {c : Char} (hw : pyIsSpace c = false) : c ≠ '\n' := by
  intro rfl_eq
  subst rfl_eq
  simp [pyIsSpace] at hw

theorem split_text_length_pos {t : String} {c : Char} (hc : c ∈ t.data)
    (hw : pyIsSpace c = false) : 1 ≤ (split_text t).length := by
  obtain ⟨ch, hch, hcch⟩ := mem_splitNN_of_mem hc (nonWs_ne_newline hw)
  have hkeep : pyStripL ch ∈
      ((splitNN t.data).map pyStripL).filter (fun l => !l.isEmpty) := by
    rw [List.mem_filter]
    refine ⟨List.mem_map_of_mem _ hch, ?_⟩
    have := pyStripL_ne_nil hcch hw
    simpa [List.isEmpty_iff] using this
  have : (String.mk (pyStripL ch)) ∈ split_text t := by
    unfold split_text
    exact List.mem_map_of_mem _ hkeep
  have hne : split_text t ≠ [] := List.ne_nil_of_mem this
  exact List.length_pos.mpr hne

example : split_text "A\n\nB\n\nC" = ["A", "B", "C"] := by decide
example : split_text "A\n\n\n\nB\n\n \n\nC" = ["A", "B", "C"] := by decide
example : split_text "  \n\n \t " = [] := by decide

/-- Outcome of a call into an external collaborator (the speech synthesizer
`TTSProcessor.generate_speech` or the converter `S2SProcessor.convert_audio`).
Both are documented to return a boolean and to write their output file exactly
on success; `raised` models an unexpected exception escaping the call — the
situation the job-boundary `except` handlers in AudioGenerator exist for. -/
inductive ExtRes where
  | ok
  | failed
  | raised
deriving DecidableEq, Repr

/-- Result oracles for the external collaborators, indexed by section number:
`synth n` is the outcome of `generate_speech` for section `n`, `convert n`
the outcome of `convert_audio` for section `n`, and `rvcLoadOk` the outcome
of `S2SProcessor.load_model`. -/
structure Oracles where
  synth : Nat → ExtRes
  convert : Nat → ExtRes
  rvcLoadOk : Bool

/-- The files the pipeline manipulates in the active output directory:
`temp n` is whether `temp_section_<n>.wav` exists, `final n` whether
`section_<n>.wav` exists. -/
structure FS where
  temp : Nat → Bool
  final : Nat → Bool

def FS.setTemp (fs : FS) (n : Nat) (b : Bool) : FS :=
  { fs with temp := fun m => if m = n then b else fs.temp m }

def FS.setFinal (fs : FS) (n : Nat) (b : Bool) : FS :=
  { fs with final := fun m => if m = n then b else fs.final m }

@[simp] theorem FS.temp_setTemp (fs : FS) (n : Nat) (b : Bool) :
    (fs.setTemp n b).temp n = b := by simp [FS.setTemp]

@[simp] theorem FS.final_setTemp (fs : FS) (n m : Nat) (b : Bool) :
    (fs.setTemp n b).final m = fs.final m := rfl

@[simp] theorem FS.final_setFinal (fs : FS) (n : Nat) (b : Bool) :
    (fs.setFinal n b).final n = b := by simp [FS.setFinal]

@[simp] theorem FS.temp_setFinal (fs : FS) (n m : Nat) (b : Bool) :
    (fs.setFinal n b).temp m = fs.temp m := rfl

/-- The mutable state of one AudioGenerator instance
(src/audio_generator.py lines 10-13): the cooperative `running` flag, the
highest committed section number, the job size, and the accumulated artifact
list. -/
structure GenState where
  is_generating : Bool
  current_section_index : Nat
  total_sections : Nat
  generated_files : List String
deriving DecidableEq, Repr

/-- The status string returned together with the artifact list, one
constructor per distinct message produced by AudioGenerator. -/
inductive Status where
  | noSections
  | invalidVoice
  | rvcLoadFailed
  | successGen (count : Nat)
  | allFailed
  | stoppedAt (n : Nat)
  | errorMsg
  | noSelection
  | nothingToDo
  | successCont (count : Nat) (last : Nat)
  | noNewSections
  | stoppedCont (lastProcessed : Nat)
  | noSectionNumber
  | synthFailedAt (n : Nat)
  | regenOk (n : Nat)
deriving DecidableEq, Repr

/-- The final artifact path recorded for section `n`
(`str(self.current_output_dir / f"section_{n}.wav")`, directory prefix
elided since all claims concern a single active output directory). -/
def sectionFile (n : Nat) : String :=
  "section_" ++ toString n ++ ".wav"

/-- Exit of one per-section step: `completed b` is normal fall-through to the
next loop iteration (`b` = whether the section was committed), `raisedE` is an
exception propagating to the enclosing `try`. -/
inductive StepOut where
  | completed (committed : Bool)
  | raisedE
deriving DecidableEq, Repr

/-- The defensive cleanup at the start of a generate_audio step
(src/audio_generator.py lines 60-64): unlink a pre-existing temp and final
file for section `n`. -/
def cleanFiles (fs : FS) (n : Nat) : FS :=
  let fs := if fs.temp n then fs.setTemp n false else fs
  if fs.final n then fs.setFinal n false else fs

@[simp] theorem cleanFiles_temp (fs : FS) (n : Nat) :
    (cleanFiles fs n).temp n = false := by
  simp only [cleanFiles]
  split_ifs <;> simp_all

@[simp] theorem cleanFiles_final (fs : FS) (n : Nat) :
    (cleanFiles fs n).final n = false := by
  simp only [cleanFiles]
  split_ifs <;> simp_all

theorem cleanFiles_of_clean {fs : FS} {n : Nat} (ht : fs.temp n = false)
    (hf : fs.final n = false) : cleanFiles fs n = fs := by
  simp [cleanFiles, ht, hf]

theorem cleanFiles_idem (fs : FS) (n : Nat) :
    cleanFiles (cleanFiles fs n) n = cleanFiles fs n :=
  cleanFiles_of_clean (cleanFiles_temp fs n) (cleanFiles_final fs n)

/-- The per-section step of AudioGenerator.generate_audio
(src/audio_generator.py lines 55-101): delete a pre-existing temp and final
file, synthesize into the temp file (skipping the section when synthesis
reports failure), then either convert temp→final and unlink the temp on
success, or fall back to renaming the temp onto the final path; commit the
artifact when the final file exists afterwards. -/
def genStep (o : Oracles) (useRvc : Bool) (n : Nat) (fs : FS) (st : GenState) :
    FS × GenState × StepOut :=
  let fs := cleanFiles fs n
  match o.synth n with
  | .raised => (fs, st, .raisedE)
  | .failed => (fs, st, .completed false)
  | .ok =>
    let fs := fs.setTemp n true
    let next : FS × Bool :=
      if useRvc then
        match o.convert n with
        | .raised => (fs, true)
        | .ok =>
          let fs := fs.setFinal n true
          (if fs.temp n then fs.setTemp n false else fs, false)
        | .failed =>
          (if fs.temp n then (fs.setTemp n false).setFinal n true else fs, false)
      else
        (if fs.temp n then (fs.setTemp n false).setFinal n true else fs, false)
    match next with
    | (fs, true) => (fs, st, .raisedE)
    | (fs, false) =>
      if fs.final n then
        (fs, { st with
                generated_files := st.generated_files ++ [sectionFile n],
                current_section_index := n }, .completed true)
      else (fs, st, .completed false)

/-- Exit of a job loop: ran to completion, observed `running = false` at the
top of the iteration for section `n`, or an exception escaped. -/
inductive LoopExit where
  | finished
  | stopped (n : Nat)
  | raised
deriving DecidableEq, Repr

/-- The section loop of AudioGenerator.generate_audio
(src/audio_generator.py lines 50-101), also threading the processed-section
counter. -/
def genLoop (o : Oracles) (useRvc : Bool) :
    List Nat → FS → GenState → Nat → FS × GenState × Nat × LoopExit
  | [], fs, st, processed => (fs, st, processed, .finished)
  | n :: rest, fs, st, processed =>
    if st.is_generating = false then (fs, st, processed, .stopped n)
    else
      match genStep o useRvc n fs st with
      | (fs', st', .raisedE) => (fs', st', processed, .raised)
      | (fs', st', .completed c) =>
        genLoop o useRvc rest fs' st' (if c then processed + 1 else processed)

/-- The state reset at the start of a fresh full-generation job
(src/audio_generator.py lines 36-39): empty artifact list, running flag set,
index zeroed, job size recorded. -/
def freshJobState (sections : List String) : GenState :=
  { is_generating := true, current_section_index := 0,
    total_sections := sections.length, generated_files := [] }

/-- AudioGenerator.generate_audio (src/audio_generator.py lines 19-109).
The `sections_text` dataframe guard, the progress callbacks and the RVC model
lookup are UI concerns collapsed into the `voice` guard and the `rvcLoadOk`
oracle; everything else follows the source line by line.  Returns the new
file system, the new generator state, and the (artifact list, status) pair
handed back to the caller. -/
def generate_audio (o : Oracles) (sections : List String) (voice : String)
    (useRvc : Bool) (st : GenState) (fs : FS) :
    FS × GenState × List String × Status :=
  if voice = "" then (fs, st, [], .invalidVoice)
  else if sections.isEmpty then (fs, st, [], .noSections)
  else
    let st1 := freshJobState sections
    if useRvc ∧ o.rvcLoadOk = false then (fs, st1, [], .rvcLoadFailed)
    else
      match genLoop o useRvc (List.range' 1 sections.length) fs st1 0 with
      | (fs', st', processed, .finished) =>
        if 0 < processed then (fs', st', st'.generated_files, .successGen processed)
        else (fs', st', [], .allFailed)
      | (fs', st', _, .stopped _) =>
        (fs', st', st'.generated_files, .stoppedAt st'.current_section_index)
      | (fs', st', _, .raised) => (fs', st', [], .errorMsg)

/-- AudioGenerator.stop_generation (src/audio_generator.py lines 111-116). -/
def stop_generation (st : GenState) : GenState × Status :=
  ({ st with is_generating := false }, .stoppedAt st.current_section_index)

/-- The per-section body of AudioGenerator.continue_generation
(src/audio_generator.py lines 158-190).  Unlike `genStep` there is no
defensive cleanup, the result of `generate_speech` is ignored, and the
`unlink`/`rename` calls are unguarded — they raise (modelled by `raisedE`)
when the temp file does not exist.  The artifact is appended unconditionally
after the file operations. -/
def contStep (o : Oracles) (useRvc : Bool) (n : Nat) (fs : FS) (st : GenState) :
    FS × GenState × StepOut :=
  let commit : FS → FS × GenState × StepOut := fun fs =>
    (fs, { st with
            generated_files := st.generated_files ++ [sectionFile n],
            current_section_index := n }, .completed true)
  match o.synth n with
  | .raised => (fs, st, .raisedE)
  | r =>
    let fs := if r = .ok then fs.setTemp n true else fs
    if useRvc then
      match o.convert n with
      | .raised => (fs, st, .raisedE)
      | .ok =>
        let fs := fs.setFinal n true
        if fs.temp n then commit (fs.setTemp n false) else (fs, st, .raisedE)
      | .failed =>
        if fs.temp n then commit ((fs.setTemp n false).setFinal n true)
        else (fs, st, .raisedE)
    else
      if fs.temp n then commit ((fs.setTemp n false).setFinal n true)
      else (fs, st, .raisedE)

/-- The section loop of AudioGenerator.continue_generation
(src/audio_generator.py lines 148-190): selected numbers whose 0-based index
falls outside the section store are skipped via `get_section` returning
`None`; every other completed iteration increments the processed counter. -/
def contLoop (o : Oracles) (useRvc : Bool) (sections : List String) :
    List Nat → FS → GenState → Nat → FS × GenState × Nat × LoopExit
  | [], fs, st, processed => (fs, st, processed, .finished)
  | n :: rest, fs, st, processed =>
    if st.is_generating = false then (fs, st, processed, .stopped n)
    else
      match (if 1 ≤ n then sections[(n - 1)]? else none) with
      | none => contLoop o useRvc sections rest fs st processed
      | some _ =>
        match contStep o useRvc n fs st with
        | (fs', st', .raisedE) => (fs', st', processed, .raised)
        | (fs', st', .completed _) =>
          contLoop o useRvc sections rest fs' st' (processed + 1)

/-- AudioGenerator.continue_generation (src/audio_generator.py lines
118-200).  The checkbox labels are modelled by their already-parsed section
numbers (`re.match(r"Section (\d+):", ...)`); the selection is filtered to
numbers strictly above `current_section_index`, and sorted ascending before
processing.  The returned artifact component is `none` where the source
returns Python `None`. -/
def continue_generation (o : Oracles) (sections : List String)
    (sel : List Nat) (voice : String) (useRvc : Bool) (st : GenState)
    (fs : FS) : FS × GenState × Option (List String) × Status :=
  if sel.isEmpty then (fs, st, none, .noSelection)
  else if voice = "" then (fs, st, none, .invalidVoice)
  else
    let nums := sel.filter (fun n => decide (st.current_section_index < n))
    if nums.isEmpty then (fs, st, some st.generated_files, .nothingToDo)
    else
      let sorted := List.insertionSort (· ≤ ·) nums
      let st1 := { st with total_sections := nums.length, is_generating := true }
      match contLoop o useRvc sections sorted fs st1 0 with
      | (fs', st', p, .finished) =>
        let st2 := { st' with is_generating := false }
        if 0 < p then
          (fs', st2, some st2.generated_files,
            .successCont p (sorted.getLastD 0))
        else (fs', st2, some st2.generated_files, .noNewSections)
      | (fs', st', _, .stopped n) =>
        (fs', st', some st'.generated_files, .stoppedCont (n - 1))
      | (fs', st', _, .raised) =>
        (fs', { st' with is_generating := false }, some [], .errorMsg)

/-- AudioGenerator.regenerate_section (src/audio_generator.py lines 202-259).
No defensive cleanup and no gating on `current_section_index`; a pre-existing
final file is deleted only immediately before the fallback rename.  When the
requested index is out of range, `generate_speech(None, ...)` fails inside
the synthesizer (tts_processor.py catches its own exceptions) and the step
reports a synthesis failure.  The accumulated artifact list is returned
unchanged on every path. -/
def regenerate_section (o : Oracles) (sections : List String) (n : Nat)
    (voice : String) (useRvc : Bool) (st : GenState) (fs : FS) :
    FS × GenState × Option (List String) × Status :=
  if n = 0 then (fs, st, none, .noSectionNumber)
  else if voice = "" then (fs, st, none, .invalidVoice)
  else
    let effSynth := if (sections[(n - 1)]?).isSome then o.synth n else .failed
    match effSynth with
    | .raised => (fs, st, some st.generated_files, .errorMsg)
    | .failed => (fs, st, some st.generated_files, .synthFailedAt n)
    | .ok =>
      let fs := fs.setTemp n true
      if useRvc then
        match o.convert n with
        | .raised => (fs, st, some st.generated_files, .errorMsg)
        | .ok =>
          let fs := fs.setFinal n true
          let fs := if fs.temp n then fs.setTemp n false else fs
          (fs, st, some st.generated_files, .regenOk n)
        | .failed =>
          let fs :=
            if fs.temp n then
              ((if fs.final n then fs.setFinal n false else fs).setTemp n
                false).setFinal n true
            else fs
          (fs, st, some st.generated_files, .regenOk n)
      else
        let fs :=
          if fs.temp n then
            ((if fs.final n then fs.setFinal n false else fs).setTemp n
              false).setFinal n true
          else fs
        (fs, st, some st.generated_files, .regenOk n)

/-- The per-section body of AudioGenerator.regenerate_from_section
(src/audio_generator.py lines 282-324): like `genStep` but without the
defensive cleanup, with a guarded delete of a pre-existing final file before
the fallback rename; the committed flag records whether the final file exists after
the step (line 321). -/
def regenFromStep (o : Oracles) (useRvc : Bool) (n : Nat) (fs : FS) :
    FS × StepOut :=
  match o.synth n with
  | .raised => (fs, .raisedE)
  | .failed => (fs, .completed false)
  | .ok =>
    let fs := fs.setTemp n true
    let next : FS × Bool :=
      if useRvc then
        match o.convert n with
        | .raised => (fs, true)
        | .ok =>
          let fs := fs.setFinal n true
          (if fs.temp n then fs.setTemp n false else fs, false)
        | .failed =>
          (if fs.temp n then
            ((if fs.final n then fs.setFinal n false else fs).setTemp n
              false).setFinal n true
          else fs, false)
      else
        (if fs.temp n then
          ((if fs.final n then fs.setFinal n false else fs).setTemp n
            false).setFinal n true
        else fs, false)
    match next with
    | (fs, true) => (fs, .raisedE)
    | (fs, false) => (fs, .completed (fs.final n))

/-- The playback state of AudioPlayer (src/audio_player.py lines 4-14):
the artifact list, the cursor, and the active output directory (`none` when
unset). -/
structure AudioPlayer where
  generated_files : List String
  current_audio_index : Nat
  current_output_dir : Option String
deriving DecidableEq, Repr

/-- AudioPlayer.set_generated_files (src/audio_player.py lines 16-19):
replace the list wholesale and reset the cursor to 0. -/
def set_generated_files (p : AudioPlayer) (files : List String) : AudioPlayer :=
  { p with generated_files := files, current_audio_index := 0 }

/-- AudioPlayer.get_current_audio (src/audio_player.py lines 21-25):
`None` on an empty list, else the entry at the cursor (Python indexing; the
cursor is in bounds in every reachable state). -/
def get_current_audio (p : AudioPlayer) : Option String :=
  if p.generated_files.isEmpty then none
  else p.generated_files[p.current_audio_index]?

/-- AudioPlayer.next_audio (src/audio_player.py lines 27-32): advance the
cursor by one modulo the list length; no-op returning `None` on an empty
list. -/
def next_audio (p : AudioPlayer) : AudioPlayer × Option String :=
  if p.generated_files.isEmpty then (p, none)
  else
    let p' := { p with current_audio_index :=
      (p.current_audio_index + 1) % p.generated_files.length }
    (p', get_current_audio p')

/-- AudioPlayer.previous_audio (src/audio_player.py lines 34-39): move the
cursor back by one with wrap-around.  Python `(i - 1) % len` on `i ≥ 0`,
`len > 0` equals `(i + len - 1) % len`. -/
def previous_audio (p : AudioPlayer) : AudioPlayer × Option String :=
  if p.generated_files.isEmpty then (p, none)
  else
    let p' := { p with current_audio_index :=
      (p.current_audio_index + p.generated_files.length - 1) %
        p.generated_files.length }
    (p', get_current_audio p')

/-- The two concatenation-related files of the active output directory:
`temp_concatenated.wav` and `complete_audiobook.wav`. -/
structure CatFS where
  tempCat : Bool
  finalCat : Bool
deriving DecidableEq, Repr

/-- Status of AudioPlayer.concatenate_audio_files. -/
inductive CatStatus where
  | noFiles
  | okCat
  | errorCat
deriving DecidableEq, Repr

/-- AudioPlayer.concatenate_audio_files (src/audio_player.py lines 57-84):
fail (without touching the file system) when the artifact list is empty or
the output directory is unset; otherwise decode and join all artifacts
(`exportOk` is the oracle for the pydub decode/export calls — on failure the
exception is caught and reported), write the temp file, delete a
pre-existing final file, and rename temp to final. -/
def concatenate_audio_files (exportOk : Bool) (p : AudioPlayer)
    (cfs : CatFS) : CatFS × Option String × CatStatus :=
  if p.generated_files.isEmpty || p.current_output_dir.isNone then
    (cfs, none, .noFiles)
  else if exportOk = false then (cfs, none, .errorCat)
  else
    let cfs := { cfs with tempCat := true }
    let cfs := if cfs.finalCat then { cfs with finalCat := false } else cfs
    let cfs := { cfs with tempCat := false, finalCat := true }
    (cfs, some "complete_audiobook.wav", .okCat)

/-- Python `int(s)` restricted to ASCII: optional surrounding whitespace,
an optional sign, then one or more decimal digits.  (Underscore digit
grouping cannot occur here because the inputs are `"_"`-split tokens.) -/
def pyParseInt (s : String) : Option Int :=
  let t := pyStripL s.data
  let signed : Int × List Char :=
    match t with
    | '-' :: rest => (-1, rest)
    | '+' :: rest => (1, rest)
    | _ => (1, t)
  match signed with
  | (sign, digits) =>
    if digits.isEmpty then none
    else if digits.all (fun d => d.isDigit) then
      some (sign * Int.ofNat
        (digits.foldl (fun a c => a * 10 + (c.toNat - '0'.toNat)) 0))
    else none

/-- `pathlib.Path.stem`: the file name without its last dot-suffix.  Exact
for the names considered here (they start with `"section_"` and end with
`".wav"`, so the leading-dot and trailing-dot corner cases of pathlib cannot
arise). -/
def pyStem (name : String) : String :=
  match (name.data.reverse.dropWhile fun c => ¬c = '.') with
  | [] => name
  | _ :: rest => String.mk rest.reverse

/-- Python `str.split('_')` (single-character separator). -/
def splitUnderscore : List Char → List (List Char)
  | [] => [[]]
  | c :: rest =>
    if c = '_' then [] :: splitUnderscore rest
    else
      let r := splitUnderscore rest
      (c :: r.headD []) :: r.tail

/-- Whether a file name matches the glob pattern `section_*.wav`
(src/file_processor.py line 100): literally `section_`, any characters, then
literally `.wav`. -/
def globSectionWav (name : String) : Bool :=
  ("section_".data).isPrefixOf name.data &&
    (".wav".data).isSuffixOf (name.data.drop 8)

/-- The section number the source extracts from a globbed file:
`int(file.stem.split('_')[1])`, with `None` when the index or the parse
fails (the `(ValueError, IndexError)` handler skips the file). -/
def parseSectionNum (name : String) : Option Int :=
  match splitUnderscore (pyStem name).data with
  | _ :: tok :: _ => pyParseInt (String.mk tok)
  | _ => none

/-- The order in which Python `sorted` arranges the `(section_num, path)`
tuples: lexicographic on the number, then the path string. -/
def pairLe (a b : Int × String) : Prop :=
  a.1 < b.1 ∨ (a.1 = b.1 ∧ a.2 ≤ b.2)

instance : DecidableRel pairLe := fun a b => by
  unfold pairLe
  infer_instance

instance : IsTotal (Int × String) pairLe :=
  ⟨fun a b => by
    unfold pairLe
    rcases lt_trichotomy a.1 b.1 with h | h | h
    · exact Or.inl (Or.inl h)
    · rcases le_total a.2 b.2 with h2 | h2
      · exact Or.inl (Or.inr ⟨h, h2⟩)
      · exact Or.inr (Or.inr ⟨h.symm, h2⟩)
    · exact Or.inr (Or.inl h)⟩

instance : IsTrans (Int × String) pairLe :=
  ⟨fun a b c hab hbc => by
    unfold pairLe at hab hbc ⊢
    rcases hab with h1 | ⟨h1, h1s⟩ <;> rcases hbc with h2 | ⟨h2, h2s⟩
    · exact Or.inl (h1.trans h2)
    · exact Or.inl (h2 ▸ h1)
    · exact Or.inl (h1 ▸ h2)
    · exact Or.inr ⟨h1.trans h2, h1s.trans h2s⟩⟩

/-- FileProcessor.get_existing_audio_files (src/file_processor.py lines
94-107).  `none` models an unset or non-existing output directory; a
directory is its list of entry names in arbitrary listing order (the
constant directory prefix of `str(file)` is elided, which preserves the
sort order). -/
def get_existing_audio_files (dir : Option (List String)) : List String :=
  match dir with
  | none => []
  | some listing =>
    let globbed := listing.filter globSectionWav
    let pairs := globbed.filterMap fun name =>
      (parseSectionNum name).map fun k => (k, name)
    (List.insertionSort pairLe pairs).map fun q => q.2

/-! Concrete fixtures used by scenario theorems and witnesses. -/

/-- An empty output directory. -/
def fs0 : FS := ⟨fun _ => false, fun _ => false⟩

/-- A freshly constructed AudioGenerator state. -/
def st0 : GenState := ⟨false, 0, 0, []⟩

/-- Oracle: every external call succeeds. -/
def oAllOk : Oracles := ⟨fun _ => .ok, fun _ => .ok, true⟩

/-- Oracle: synthesis fails for section 2 only, conversion always succeeds. -/
def oC2 : Oracles := ⟨fun n => if n = 2 then .failed else .ok, fun _ => .ok, true⟩

/-- Oracle: synthesis succeeds for section 1 and raises an unexpected
exception for every other section. -/
def oC5 : Oracles := ⟨fun n => if n = 1 then .ok else .raised, fun _ => .ok, true⟩

/-- Oracle: synthesis always reports failure. -/
def oFail : Oracles := ⟨fun _ => .failed, fun _ => .ok, true⟩

/-- An output directory holding a stale `temp_section_1.wav` left by an
aborted earlier run. -/
def fsDirty : FS := ⟨fun n => decide (n = 1), fun _ => false⟩

/-- Generator state after a job over sections 1-4 was stopped once sections
1 and 2 were committed. -/
def stStopped : GenState := ⟨false, 2, 4, [sectionFile 1, sectionFile 2]⟩

/-- Generator state after a full run over three sections in which only
section 1 produced an artifact. -/
def stC6 : GenState := ⟨false, 3, 3, [sectionFile 1]⟩

/-! Characterization of the per-section steps, one equation per branch of
the source. -/

/-- The artifact commit at the end of a successful step
(src/audio_generator.py lines 97-100 resp. 187-189). -/
def commitState (st : GenState) (n : Nat) : GenState :=
  { st with generated_files := st.generated_files ++ [sectionFile n],
            current_section_index := n }

theorem genStep_raised {o : Oracles} {n : Nat} (u : Bool) (fs : FS)
    (st : GenState) (hsy : o.synth n = .raised) :
    genStep o u n fs st = (cleanFiles fs n, st, .raisedE) := by
  unfold genStep
  rw [hsy]

theorem genStep_failed {o : Oracles} {n : Nat} (u : Bool) (fs : FS)
    (st : GenState) (hsy : o.synth n = .failed) :
    genStep o u n fs st = (cleanFiles fs n, st, .completed false) := by
  unfold genStep
  rw [hsy]

theorem genStep_ok_noRvc {o : Oracles} {n : Nat} (fs : FS) (st : GenState)
    (hsy : o.synth n = .ok) :
    genStep o false n fs st =
      ((((cleanFiles fs n).setTemp n true).setTemp n false).setFinal n true,
        commitState st n, .completed true) := by
  unfold genStep
  rw [hsy]
  simp [commitState]

theorem genStep_ok_rvcOk {o : Oracles} {n : Nat} (fs : FS) (st : GenState)
    (hsy : o.synth n = .ok) (hcv : o.convert n = .ok) :
    genStep o true n fs st =
      ((((cleanFiles fs n).setTemp n true).setFinal n true).setTemp n false,
        commitState st n, .completed true) := by
  unfold genStep
  rw [hsy, hcv]
  simp [commitState]

theorem genStep_ok_rvcFailed {o : Oracles} {n : Nat} (fs : FS)
    (st : GenState) (hsy : o.synth n = .ok) (hcv : o.convert n = .failed) :
    genStep o true n fs st =
      ((((cleanFiles fs n).setTemp n true).setTemp n false).setFinal n true,
        commitState st n, .completed true) := by
  unfold genStep
  rw [hsy, hcv]
  simp [commitState]

theorem genStep_ok_rvcRaised {o : Oracles} {n : Nat} (fs : FS)
    (st : GenState) (hsy : o.synth n = .ok) (hcv : o.convert n = .raised) :
    genStep o true n fs st =
      ((cleanFiles fs n).setTemp n true, st, .raisedE) := by
  unfold genStep
  rw [hsy, hcv]
  simp

theorem contStep_raised {o : Oracles} {n : Nat} (u : Bool) (fs : FS)
    (st : GenState) (hsy : o.synth n = .raised) :
    contStep o u n fs st = (fs, st, .raisedE) := by
  unfold contStep
  rw [hsy]

theorem contStep_ok_noRvc {o : Oracles} {n : Nat} (fs : FS) (st : GenState)
    (hsy : o.synth n = .ok) :
    contStep o false n fs st =
      (((fs.setTemp n true).setTemp n false).setFinal n true,
        commitState st n, .completed true) := by
  unfold contStep
  rw [hsy]
  simp [commitState]

theorem contStep_ok_rvcOk {o : Oracles} {n : Nat} (fs : FS) (st : GenState)
    (hsy : o.synth n = .ok) (hcv : o.convert n = .ok) :
    contStep o true n fs st =
      (((fs.setTemp n true).setFinal n true).setTemp n false,
        commitState st n, .completed true) := by
  unfold contStep
  rw [hsy, hcv]
  simp [commitState]

theorem contStep_ok_rvcFailed {o : Oracles} {n : Nat} (fs : FS)
    (st : GenState) (hsy : o.synth n = .ok) (hcv : o.convert n = .failed) :
    contStep o true n fs st =
      (((fs.setTemp n true).setTemp n false).setFinal n true,
        commitState st n, .completed true) := by
  unfold contStep
  rw [hsy, hcv]
  simp [commitState]

theorem contStep_ok_rvcRaised {o : Oracles} {n : Nat} (fs : FS)
    (st : GenState) (hsy : o.synth n = .ok) (hcv : o.convert n = .raised) :
    contStep o true n fs st = (fs.setTemp n true, st, .raisedE) := by
  unfold contStep
  rw [hsy, hcv]
  simp

theorem contStep_failed_noRvc_stale {o : Oracles} {n : Nat} (fs : FS)
    (st : GenState) (hsy : o.synth n = .failed) (ht : fs.temp n = true) :
    contStep o false n fs st =
      ((fs.setTemp n false).setFinal n true, commitState st n,
        .completed true) := by
  unfold contStep
  rw [hsy]
  simp [ht, commitState]

theorem contStep_failed_noRvc_clean {o : Oracles} {n : Nat} (fs : FS)
    (st : GenState) (hsy : o.synth n = .failed) (ht : fs.temp n = false) :
    contStep o false n fs st = (fs, st, .raisedE) := by
  unfold contStep
  rw [hsy]
  simp [ht]

theorem contStep_failed_rvcOk {o : Oracles} {n : Nat} (fs : FS)
    (st : GenState) (hsy : o.synth n = .failed)
    (hcv : o.convert n = .ok) :
    contStep o true n fs st =
      (if fs.temp n then ((fs.setFinal n true).setTemp n false,
          commitState st n, .completed true)
        else (fs.setFinal n true, st, .raisedE)) := by
  unfold contStep
  rw [hsy, hcv]
  by_cases ht : fs.temp n = true <;> simp [ht, commitState]

theorem contStep_failed_rvcFailed {o : Oracles} {n : Nat} (fs : FS)
    (st : GenState) (hsy : o.synth n = .failed)
    (hcv : o.convert n = .failed) :
    contStep o true n fs st =
      (if fs.temp n then ((fs.setTemp n false).setFinal n true,
          commitState st n, .completed true)
        else (fs, st, .raisedE)) := by
  unfold contStep
  rw [hsy, hcv]
  by_cases ht : fs.temp n = true <;> simp [ht, commitState]

theorem contStep_failed_rvcRaised {o : Oracles} {n : Nat} (fs : FS)
    (st : GenState) (hsy : o.synth n = .failed)
    (hcv : o.convert n = .raised) :
    contStep o true n fs st = (fs, st, .raisedE) := by
  unfold contStep
  rw [hsy, hcv]
  simp

/-- Claim C1: for every per-section step that completes (synthesis
succeeded, conversion succeeded, or conversion failed and fell back to
rename) — in both the full-generation step and the continue step — at most
one of tempPath (`temp_section_<i>.wav`) and finalPath (`section_<i>.wav`)
exists afterwards, never both; and if synthesis reported success, at the end
of the step finalPath exists and tempPath does not. -/
theorem generation_step_temp_final_invariant (o : Oracles) (useRvc : Bool)
    (n : Nat) (fs : FS) (st : GenState) :
    (∀ fs' st' c, genStep o useRvc n fs st = (fs', st', .completed c) →
      (fs'.temp n = true → fs'.final n = false)
      ∧ (o.synth n = .ok → fs'.final n = true ∧ fs'.temp n = false))
    ∧ (∀ fs' st' c, contStep o useRvc n fs st = (fs', st', .completed c) →
      (fs'.temp n = true → fs'.final n = false)
      ∧ (o.synth n = .ok → fs'.final n = true ∧ fs'.temp n = false)) := by
  constructor
  · intro fs' st' c heq
    cases hsy : o.synth n
    · cases useRvc
      · rw [genStep_ok_noRvc fs st hsy] at heq
        rw [Prod.mk.injEq, Prod.mk.injEq] at heq
        obtain ⟨rfl, -, -⟩ := heq
        exact ⟨by intro h; simp at h, fun _ => by simp⟩
      · cases hcv : o.convert n
        · rw [genStep_ok_rvcOk fs st hsy hcv] at heq
          rw [Prod.mk.injEq, Prod.mk.injEq] at heq
          obtain ⟨rfl, -, -⟩ := heq
          exact ⟨by intro h; simp at h, fun _ => by simp⟩
        · rw [genStep_ok_rvcFailed fs st hsy hcv] at heq
          rw [Prod.mk.injEq, Prod.mk.injEq] at heq
          obtain ⟨rfl, -, -⟩ := heq
          exact ⟨by intro h; simp at h, fun _ => by simp⟩
        · rw [genStep_ok_rvcRaised fs st hsy hcv] at heq
          simp at heq
    · rw [genStep_failed useRvc fs st hsy] at heq
      rw [Prod.mk.injEq, Prod.mk.injEq] at heq
      obtain ⟨rfl, -, -⟩ := heq
      refine ⟨by intro h; simp at h, fun h => ?_⟩
      exact absurd h (by simp)
    · rw [genStep_raised useRvc fs st hsy] at heq
      simp at heq
  · intro fs' st' c heq
    cases hsy : o.synth n
    · cases useRvc
      · rw [contStep_ok_noRvc fs st hsy] at heq
        rw [Prod.mk.injEq, Prod.mk.injEq] at heq
        obtain ⟨rfl, -, -⟩ := heq
        exact ⟨by intro h; simp at h, fun _ => by simp⟩
      · cases hcv : o.convert n
        · rw [contStep_ok_rvcOk fs st hsy hcv] at heq
          rw [Prod.mk.injEq, Prod.mk.injEq] at heq
          obtain ⟨rfl, -, -⟩ := heq
          exact ⟨by intro h; simp at h, fun _ => by simp⟩
        · rw [contStep_ok_rvcFailed fs st hsy hcv] at heq
          rw [Prod.mk.injEq, Prod.mk.injEq] at heq
          obtain ⟨rfl, -, -⟩ := heq
          exact ⟨by intro h; simp at h, fun _ => by simp⟩
        · rw [contStep_ok_rvcRaised fs st hsy hcv] at heq
          simp at heq
    · cases useRvc
      · by_cases ht : fs.temp n = true
        · rw [contStep_failed_noRvc_stale fs st hsy ht] at heq
          rw [Prod.mk.injEq, Prod.mk.injEq] at heq
          obtain ⟨rfl, -, -⟩ := heq
          refine ⟨by intro h; simp at h, fun h => ?_⟩
          exact absurd h (by simp)
        · rw [contStep_failed_noRvc_clean fs st hsy
            (by simpa using ht)] at heq
          simp at heq
      · cases hcv : o.convert n
        · rw [contStep_failed_rvcOk fs st hsy hcv] at heq
          by_cases ht : fs.temp n = true
          · rw [if_pos ht] at heq
            rw [Prod.mk.injEq, Prod.mk.injEq] at heq
            obtain ⟨rfl, -, -⟩ := heq
            refine ⟨by intro h; simp at h, fun h => ?_⟩
            exact absurd h (by simp)
          · rw [if_neg ht] at heq
            simp at heq
        · rw [contStep_failed_rvcFailed fs st hsy hcv] at heq
          by_cases ht : fs.temp n = true
          · rw [if_pos ht] at heq
            rw [Prod.mk.injEq, Prod.mk.injEq] at heq
            obtain ⟨rfl, -, -⟩ := heq
            refine ⟨by intro h; simp at h, fun h => ?_⟩
            exact absurd h (by simp)
          · rw [if_neg ht] at heq
            simp at heq
        · rw [contStep_failed_rvcRaised fs st hsy hcv] at heq
          simp at heq
    · rw [contStep_raised useRvc fs st hsy] at heq
      simp at heq

/-- Witness for C1 at a concrete input: a successful no-conversion
generate_audio step on a clean directory ends with the final file present
and the temp file gone. -/
theorem generation_step_temp_final_invariant_witness :
    oAllOk.synth 1 = ExtRes.ok
    ∧ (genStep oAllOk false 1 fs0 st0).1.final 1 = true
    ∧ (genStep oAllOk false 1 fs0 st0).1.temp 1 = false := by
  refine ⟨rfl, ?_⟩
  have h := (generation_step_temp_final_invariant oAllOk false 1 fs0 st0).1
    (genStep oAllOk false 1 fs0 st0).1 (genStep oAllOk false 1 fs0 st0).2.1
    true rfl
  exact h.2 rfl

/-- Claim C2: in a full-generation job over three sections where only
synthesis for section 2 reports failure, the failed section is skipped — not
recorded, `current_section_index` not advanced — and the job continues: the
result is `[section_1.wav, section_3.wav]` with `processed = 2` and an
overall success status.  The second group of conjuncts inspects the loop
right after the failing section: only section 1 is recorded, the last
committed index is still 1 and the processed counter is still 1. -/
theorem generate_skips_failed_section (a b c : String) (st : GenState) :
    (generate_audio oC2 [a, b, c] "af_heart" false st fs0).2.2 =
      ([sectionFile 1, sectionFile 3], Status.successGen 2)
    ∧ (genLoop oC2 false [1, 2] fs0 (freshJobState [a, b, c])
        0).2.1.generated_files = [sectionFile 1]
    ∧ (genLoop oC2 false [1, 2] fs0 (freshJobState [a, b, c])
        0).2.1.current_section_index = 1
    ∧ (genLoop oC2 false [1, 2] fs0 (freshJobState [a, b, c]) 0).2.2.1 = 1 := by
  exact ⟨rfl, rfl, rfl, rfl⟩

/-- When every selected index is a valid section and synthesis succeeds on
all of them, the conversion-disabled continue loop commits every index in
list order: it appends one artifact per index, ends on the last index, and
counts one processed section per index. -/
theorem contLoop_all_ok (o : Oracles) (sections : List String) :
    ∀ (l : List Nat) (fs : FS) (st : GenState) (p : Nat),
      st.is_generating = true →
      (∀ n ∈ l, 1 ≤ n ∧ n ≤ sections.length) →
      (∀ n ∈ l, o.synth n = ExtRes.ok) →
      ∃ fs', contLoop o false sections l fs st p =
        (fs',
          { is_generating := true,
            current_section_index := l.getLastD st.current_section_index,
            total_sections := st.total_sections,
            generated_files := st.generated_files ++ l.map sectionFile },
          p + l.length, LoopExit.finished) := by
  intro l
  induction l with
  | nil =>
    intro fs st p hgen _ _
    obtain ⟨g, ci, ts, gf⟩ := st
    simp only [GenState.is_generating] at hgen
    subst hgen
    exact ⟨fs, by simp [contLoop]⟩
  | cons n rest ih =>
    intro fs st p hgen hval hsynth
    obtain ⟨hn1, hnle⟩ := hval n (List.mem_cons_self _ _)
    have hlt : n - 1 < sections.length := by omega
    have hsy : o.synth n = ExtRes.ok := hsynth n (List.mem_cons_self _ _)
    have hstep : contLoop o false sections (n :: rest) fs st p =
        contLoop o false sections rest
          (((fs.setTemp n true).setTemp n false).setFinal n true)
          (commitState st n) (p + 1) := by
      conv_lhs => unfold contLoop
      rw [hgen, if_pos hn1, List.getElem?_eq_getElem hlt,
        contStep_ok_noRvc fs st hsy]
      rfl
    obtain ⟨fs', heq⟩ := ih
      (((fs.setTemp n true).setTemp n false).setFinal n true)
      (commitState st n) (p + 1) (by simp [commitState, hgen])
      (fun m hm => hval m (List.mem_cons_of_mem _ hm))
      (fun m hm => hsynth m (List.mem_cons_of_mem _ hm))
    refine ⟨fs', ?_⟩
    rw [hstep, heq]
    have hp : p + 1 + rest.length = p + (n :: rest).length := by
      simp
      omega
    rw [hp]
    simp [commitState, List.getLastD_cons]
    cases rest with
    | nil => simp
    | cons x xs =>
      rw [List.getLast?_cons_cons]
      cases hl : (x :: xs).getLast? with
      | none => exact absurd hl (by simp)
      | some y => rfl

/-- Claim C3: continue after a stop processes exactly the selected section
numbers strictly greater than `current_section_index`, in ascending order
regardless of the input order of the selection (third conjunct); when no
such number remains it returns the accumulated list with a nothing-to-do
status, leaving the state — including the running flag — untouched (first
conjunct); otherwise it appends one artifact per remaining number in sorted
order (second conjunct). -/
theorem continue_resumes_after_last_committed (sections : List String)
    (o : Oracles) (st : GenState) (fs : FS) (sel : List Nat)
    (hval : ∀ n ∈ sel, 1 ≤ n ∧ n ≤ sections.length)
    (hsynth : ∀ n ∈ sel, o.synth n = ExtRes.ok) :
    (sel ≠ [] →
      sel.filter (fun n => decide (st.current_section_index < n)) = [] →
      continue_generation o sections sel "af_heart" false st fs =
        (fs, st, some st.generated_files, Status.nothingToDo))
    ∧ (∀ rem,
        rem = sel.filter (fun n => decide (st.current_section_index < n)) →
        rem ≠ [] →
        List.Sorted (· ≤ ·) (List.insertionSort (· ≤ ·) rem)
        ∧ (List.insertionSort (· ≤ ·) rem).Perm rem
        ∧ ∃ fs', continue_generation o sections sel "af_heart" false st fs =
            (fs',
              { is_generating := false,
                current_section_index := (List.insertionSort (· ≤ ·)
                  rem).getLastD st.current_section_index,
                total_sections := rem.length,
                generated_files := st.generated_files ++
                  (List.insertionSort (· ≤ ·) rem).map sectionFile },
              some (st.generated_files ++
                (List.insertionSort (· ≤ ·) rem).map sectionFile),
              Status.successCont rem.length
                ((List.insertionSort (· ≤ ·) rem).getLastD 0)))
    ∧ (∀ sel₂, sel₂.Perm sel →
        continue_generation o sections sel₂ "af_heart" false st fs =
          continue_generation o sections sel "af_heart" false st fs) := by
  refine ⟨?_, ?_, ?_⟩
  · intro hne hfil
    have h1 : sel.isEmpty = false := by simpa [List.isEmpty_iff] using hne
    simp [continue_generation, h1, hfil]
  · intro rem hrem hne
    refine ⟨List.sorted_insertionSort _ rem, List.perm_insertionSort _ rem, ?_⟩
    have hsel : sel ≠ [] := by
      intro h
      subst h
      simp at hrem
      exact hne hrem
    have h1 : sel.isEmpty = false := by simpa [List.isEmpty_iff] using hsel
    have h2 : (sel.filter
        (fun n => decide (st.current_section_index < n))).isEmpty = false := by
      rw [← hrem]
      simpa [List.isEmpty_iff] using hne
    have hvr : ∀ n ∈ List.insertionSort (· ≤ ·) rem,
        1 ≤ n ∧ n ≤ sections.length := by
      intro n hn
      have hm : n ∈ rem := (List.mem_insertionSort _).mp hn
      rw [hrem] at hm
      exact hval n (List.mem_filter.mp hm).1
    have hsr : ∀ n ∈ List.insertionSort (· ≤ ·) rem,
        o.synth n = ExtRes.ok := by
      intro n hn
      have hm : n ∈ rem := (List.mem_insertionSort _).mp hn
      rw [hrem] at hm
      exact hsynth n (List.mem_filter.mp hm).1
    obtain ⟨fs', heq⟩ := contLoop_all_ok o sections
      (List.insertionSort (· ≤ ·) rem) fs
      { st with total_sections := rem.length, is_generating := true } 0
      rfl hvr hsr
    refine ⟨fs', ?_⟩
    have hpos : 0 < 0 + (List.insertionSort (· ≤ ·) rem).length := by
      rw [List.length_insertionSort]
      simpa using List.length_pos.mpr hne
    simp only [continue_generation, h1, Bool.false_eq_true, if_false, ← hrem,
      h2, String.reduceEq, reduceIte, heq]
    rw [if_pos hpos]
    simp [List.length_insertionSort, hne]
  · intro sel₂ hperm
    by_cases hsel : sel = []
    · subst hsel
      rw [hperm.eq_nil]
    · have hsel₂ : sel₂ ≠ [] := by
        intro h
        rw [h] at hperm
        exact hsel hperm.symm.eq_nil
      have h1 : sel.isEmpty = false := by simpa [List.isEmpty_iff] using hsel
      have h12 : sel₂.isEmpty = false := by
        simpa [List.isEmpty_iff] using hsel₂
      have hfe : (sel₂.filter (fun n => decide (st.current_section_index < n))).Perm
          (sel.filter (fun n => decide (st.current_section_index < n))) :=
        hperm.filter _
      by_cases hf : sel.filter (fun n => decide (st.current_section_index < n)) = []
      · have hf2 : sel₂.filter
            (fun n => decide (st.current_section_index < n)) = [] := by
          rw [hf] at hfe
          exact hfe.eq_nil
        simp [continue_generation, h1, h12, hf, hf2]
      · have hf2 : sel₂.filter
            (fun n => decide (st.current_section_index < n)) ≠ [] := by
          intro h
          rw [h] at hfe
          exact hf hfe.symm.eq_nil
        have he : (sel.filter
            (fun n => decide (st.current_section_index < n))).isEmpty = false := by
          simpa [List.isEmpty_iff] using hf
        have he2 : (sel₂.filter
            (fun n => decide (st.current_section_index < n))).isEmpty = false := by
          simpa [List.isEmpty_iff] using hf2
        have hsorteq : List.insertionSort (· ≤ ·)
            (sel₂.filter (fun n => decide (st.current_section_index < n))) =
            List.insertionSort (· ≤ ·)
            (sel.filter (fun n => decide (st.current_section_index < n))) :=
          List.eq_of_perm_of_sorted
            ((List.perm_insertionSort _ _).trans
              (hfe.trans (List.perm_insertionSort _ _).symm))
            (List.sorted_insertionSort _ _) (List.sorted_insertionSort _ _)
        have hlen : (sel₂.filter
            (fun n => decide (st.current_section_index < n))).length =
            (sel.filter (fun n => decide (st.current_section_index < n))).length :=
          hfe.length_eq
        simp only [continue_generation, h1, h12, Bool.false_eq_true, if_false,
          he, he2, String.reduceEq, reduceIte, hsorteq, hlen]

/-- Witness for C3: the spec scenario — stopped after committing sections
1 and 2 of four, continue with the full selection in scrambled order
processes exactly 3 and 4 and the accumulated artifact list has length 4 in
order. -/
theorem continue_resumes_witness :
    (continue_generation oAllOk ["a", "b", "c", "d"] [3, 1, 4, 2] "af_heart"
        false stStopped fs0).2.2 =
      (some [sectionFile 1, sectionFile 2, sectionFile 3, sectionFile 4],
        Status.successCont 2 4) := by
  obtain ⟨-, -, fs', heq⟩ :=
    (continue_resumes_after_last_committed ["a", "b", "c", "d"] oAllOk
      stStopped fs0 [3, 1, 4, 2] (by decide) (by decide)).2.1 [3, 4]
      (by decide) (by decide)
  rw [heq]
  rfl

/-- genStep never changes the running flag. -/
theorem genStep_keeps_flag {o : Oracles} {u : Bool} {n : Nat} {fs : FS}
    {st : GenState} :
    ∀ {fs' st' out}, genStep o u n fs st = (fs', st', out) →
      st'.is_generating = st.is_generating := by
  intro fs' st' out heq
  cases hsy : o.synth n
  · cases u
    · rw [genStep_ok_noRvc fs st hsy] at heq
      rw [Prod.mk.injEq, Prod.mk.injEq] at heq
      obtain ⟨-, rfl, -⟩ := heq
      simp [commitState]
    · cases hcv : o.convert n
      · rw [genStep_ok_rvcOk fs st hsy hcv] at heq
        rw [Prod.mk.injEq, Prod.mk.injEq] at heq
        obtain ⟨-, rfl, -⟩ := heq
        simp [commitState]
      · rw [genStep_ok_rvcFailed fs st hsy hcv] at heq
        rw [Prod.mk.injEq, Prod.mk.injEq] at heq
        obtain ⟨-, rfl, -⟩ := heq
        simp [commitState]
      · rw [genStep_ok_rvcRaised fs st hsy hcv] at heq
        rw [Prod.mk.injEq, Prod.mk.injEq] at heq
        obtain ⟨-, rfl, -⟩ := heq
        rfl
  · rw [genStep_failed u fs st hsy] at heq
    rw [Prod.mk.injEq, Prod.mk.injEq] at heq
    obtain ⟨-, rfl, -⟩ := heq
    rfl
  · rw [genStep_raised u fs st hsy] at heq
    rw [Prod.mk.injEq, Prod.mk.injEq] at heq
    obtain ⟨-, rfl, -⟩ := heq
    rfl

/-- When the generate loop aborts with an exception, the running flag is
still what it was on entry — the handler in generate_audio never resets it. -/
theorem genLoop_raised_keeps_running {o : Oracles} {u : Bool} :
    ∀ {l : List Nat} {fs : FS} {st : GenState} {p : Nat} {fs' st' p'},
      st.is_generating = true →
      genLoop o u l fs st p = (fs', st', p', LoopExit.raised) →
      st'.is_generating = true := by
  intro l
  induction l with
  | nil =>
    intro fs st p fs' st' p' hgen heq
    simp [genLoop] at heq
  | cons n rest ih =>
    intro fs st p fs' st' p' hgen heq
    unfold genLoop at heq
    rw [hgen] at heq
    simp only [Bool.true_eq_false, if_false, reduceIte] at heq
    rcases hstep : genStep o u n fs st with ⟨gfs, gst, gout⟩
    rw [hstep] at heq
    cases gout with
    | raisedE =>
      rw [Prod.mk.injEq, Prod.mk.injEq, Prod.mk.injEq] at heq
      obtain ⟨-, rfl, -⟩ := heq
      rw [genStep_keeps_flag hstep]
      exact hgen
    | completed c =>
      exact ih (by rw [genStep_keeps_flag hstep]; exact hgen) heq

/-- Claim C5 counterexample: a job over two sections in which section 1
commits and the step for section 2 raises.  The job returns an error result, but
the caller receives an EMPTY artifact list — not the partial list
`[section_1.wav]` that was committed (it survives only in the internal
state) — and `is_generating` is left true, not forced false. -/
theorem job_exception_counterexample :
    ¬ ((generate_audio oC5 ["x", "y"] "af_heart" false st0 fs0).2.2.1 =
          (generate_audio oC5 ["x", "y"] "af_heart" false st0
            fs0).2.1.generated_files
        ∧ (generate_audio oC5 ["x", "y"] "af_heart" false st0
            fs0).2.1.is_generating = false)
    ∧ (generate_audio oC5 ["x", "y"] "af_heart" false st0 fs0).2.2.2 =
        Status.errorMsg
    ∧ (generate_audio oC5 ["x", "y"] "af_heart" false st0
        fs0).2.1.generated_files = [sectionFile 1]
    ∧ (generate_audio oC5 ["x", "y"] "af_heart" false st0 fs0).2.2.1 = []
    ∧ (generate_audio oC5 ["x", "y"] "af_heart" false st0
        fs0).2.1.is_generating = true := by
  refine ⟨?_, rfl, rfl, rfl, rfl⟩
  intro h
  exact absurd h.2 (by decide)

/-- Claim C5 (amended): an unexpected exception inside a job loop is caught
at the job boundary and an error result is returned, but the caller receives
an empty artifact list — the partial artifacts committed so far survive only
in the internal state; the handler in `continue_generation` forces the
running flag false, while the one in `generate_audio` leaves it set. -/
theorem job_exception_boundary :
    (∀ (o : Oracles) (sections : List String) (voice : String)
        (useRvc : Bool) (st : GenState) (fs fs' : FS) (st' : GenState)
        (p : Nat),
      voice ≠ "" → sections ≠ [] → (useRvc = true → o.rvcLoadOk = true) →
      genLoop o useRvc (List.range' 1 sections.length) fs
          (freshJobState sections) 0 = (fs', st', p, LoopExit.raised) →
      generate_audio o sections voice useRvc st fs =
          (fs', st', [], Status.errorMsg)
        ∧ st'.is_generating = true)
    ∧ (∀ (o : Oracles) (sections : List String) (sel : List Nat)
        (voice : String) (useRvc : Bool) (st : GenState) (fs fs' : FS)
        (st' : GenState) (p : Nat) (rem : List Nat),
      voice ≠ "" →
      rem = sel.filter (fun n => decide (st.current_section_index < n)) →
      rem ≠ [] →
      contLoop o useRvc sections (List.insertionSort (· ≤ ·) rem) fs
          { st with total_sections := rem.length, is_generating := true } 0 =
        (fs', st', p, LoopExit.raised) →
      continue_generation o sections sel voice useRvc st fs =
        (fs', { st' with is_generating := false }, some [],
          Status.errorMsg)) := by
  constructor
  · intro o sections voice useRvc st fs fs' st' p hv hs hrvc heq
    have h1 : sections.isEmpty = false := by
      simpa [List.isEmpty_iff] using hs
    have h2 : ¬(useRvc ∧ o.rvcLoadOk = false) := by
      rintro ⟨hu, hl⟩
      rw [hrvc hu] at hl
      cases hl
    constructor
    · simp only [generate_audio, if_neg hv, h1, Bool.false_eq_true, if_false,
        reduceIte, if_neg h2, heq]
    · exact genLoop_raised_keeps_running rfl heq
  · intro o sections sel voice useRvc st fs fs' st' p rem hv hrem hfil heq
    have hsel : sel ≠ [] := by
      intro h
      subst h
      simp at hrem
      exact hfil hrem
    have h1 : sel.isEmpty = false := by simpa [List.isEmpty_iff] using hsel
    have h2 : (sel.filter
        (fun n => decide (st.current_section_index < n))).isEmpty = false := by
      rw [← hrem]
      simpa [List.isEmpty_iff] using hfil
    have h3 : rem.isEmpty = false := by simpa [List.isEmpty_iff] using hfil
    simp only [continue_generation, h1, Bool.false_eq_true, if_false,
      if_neg hv, ← hrem, h2, reduceIte, heq, h3]

/-- Witness for the amended C5 at a concrete input: section 1 succeeds,
section 2 raises — the job returns the empty list with an error status while
the flag stays set. -/
theorem job_exception_boundary_witness :
    (generate_audio oC5 ["x", "y"] "af_heart" false st0 fs0).2.2 =
      ([], Status.errorMsg)
    ∧ (genLoop oC5 false (List.range' 1 2) fs0 (freshJobState ["x", "y"])
        0).2.1.is_generating = true := by
  have h := job_exception_boundary.1 oC5 ["x", "y"] "af_heart" false st0 fs0
    (genLoop oC5 false (List.range' 1 2) fs0 (freshJobState ["x", "y"]) 0).1
    (genLoop oC5 false (List.range' 1 2) fs0 (freshJobState ["x", "y"])
      0).2.1
    (genLoop oC5 false (List.range' 1 2) fs0 (freshJobState ["x", "y"])
      0).2.2.1
    (by decide) (by decide) (fun hh => absurd hh (by decide)) rfl
  refine ⟨?_, h.2⟩
  rw [h.1]

/-- Claim C6 counterexample: regenerating section 2 succeeds while the
accumulated artifact list holds only the entry for section 1; the returned and
stored lists are unchanged — no entry for section 2 is appended (and none is
updated), contradicting the claimed in-place-update-or-append behaviour.
Only the on-disk final file for section 2 is produced. -/
theorem regenerate_artifact_update_counterexample :
    (regenerate_section oAllOk ["a", "b", "c"] 2 "af_heart" false stC6
        fs0).2.2.1 = some [sectionFile 1]
    ∧ (regenerate_section oAllOk ["a", "b", "c"] 2 "af_heart" false stC6
        fs0).2.1 = stC6
    ∧ (regenerate_section oAllOk ["a", "b", "c"] 2 "af_heart" false stC6
        fs0).2.2.2 = Status.regenOk 2
    ∧ ¬ sectionFile 2 ∈ (regenerate_section oAllOk ["a", "b", "c"] 2
        "af_heart" false stC6 fs0).2.1.generated_files
    ∧ (regenerate_section oAllOk ["a", "b", "c"] 2 "af_heart" false stC6
        fs0).1.final 2 = true := by
  refine ⟨rfl, rfl, rfl, by decide, rfl⟩

/-- Claim C6 (amended): regenerate_section runs the per-section step in
isolation — it neither reads nor advances `current_section_index`, so it is
not gated by the last committed index — but on success it does NOT update
the artifact entry in place nor append one: the generator state, including
the accumulated artifact list, is returned entirely unchanged, and the
regenerated audio exists only on disk at `section_<i>.wav`. -/
theorem regenerate_section_isolated (o : Oracles) (sections : List String)
    (n : Nat) (voice : String) (st : GenState) (fs : FS)
    (hn : n ≠ 0) (hv : voice ≠ "") (hidx : n - 1 < sections.length)
    (hsy : o.synth n = ExtRes.ok) :
    ∃ fs', regenerate_section o sections n voice false st fs =
        (fs', st, some st.generated_files, Status.regenOk n)
      ∧ fs'.final n = true ∧ fs'.temp n = false := by
  refine ⟨((if (fs.setTemp n true).final n then
      (fs.setTemp n true).setFinal n false
      else fs.setTemp n true).setTemp n false).setFinal n true,
    ?_, by simp, by simp⟩
  have hsome : (sections[(n - 1)]?).isSome = true := by
    rw [List.getElem?_eq_getElem hidx]
    rfl
  simp only [regenerate_section, if_neg hn, if_neg hv, hsome, if_true,
    reduceIte, hsy]
  simp

/-- Witness for the amended C6: regenerating section 2 with the artifact
list `[section_1.wav]` succeeds (even though 2 is not above the last
committed index 3) and returns the list unchanged. -/
theorem regenerate_section_isolated_witness :
    (regenerate_section oAllOk ["a", "b", "c"] 2 "af_heart" false stC6
        fs0).2.2 = (some [sectionFile 1], Status.regenOk 2) := by
  obtain ⟨fs', heq, -, -⟩ := regenerate_section_isolated oAllOk
    ["a", "b", "c"] 2 "af_heart" stC6 fs0 (by decide) (by decide)
    (by decide) rfl
  rw [heq]
  rfl

/-- Claim C7 counterexample: with a stale `temp_section_1.wav` on disk,
regenerate_section is invoked and synthesis fails; afterwards the stale temp
file still exists — the step never deleted it before invoking the
synthesizer, contradicting the claim that every entry point begins with the
defensive cleanup. -/
theorem precleanup_counterexample :
    fsDirty.temp 1 = true
    ∧ (regenerate_section oFail ["a"] 1 "af_heart" false st0
        fsDirty).1.temp 1 = true
    ∧ (regenerate_section oFail ["a"] 1 "af_heart" false st0
        fsDirty).2.2.2 = Status.synthFailedAt 1 := by
  refine ⟨rfl, rfl, rfl⟩

/-- Claim C7 (amended): only the full-generation entry point
(generate_audio) begins each per-section step by deleting a pre-existing
tempPath and finalPath before invoking the synthesizer — its step equals the
step on the cleaned file system, and after a failed synthesis both files are
gone.  continue_generation performs no cleanup at all: with a stale temp
file present, a failed synthesis silently renames the STALE temp into the
final artifact.  regenerate_section and the regenerate-from step leave the
file system entirely untouched when synthesis fails, deleting a pre-existing
final file only immediately before their fallback rename. -/
theorem precleanup_only_in_generate (o : Oracles) (useRvc : Bool) (n : Nat)
    (st : GenState) :
    (∀ fs, o.synth n = ExtRes.failed →
      genStep o useRvc n fs st = (cleanFiles fs n, st, StepOut.completed false))
    ∧ (∀ fs, genStep o useRvc n fs st = genStep o useRvc n (cleanFiles fs n) st)
    ∧ (∀ fs, o.synth n = ExtRes.failed → fs.temp n = true →
        contStep o false n fs st =
          ((fs.setTemp n false).setFinal n true, commitState st n,
            StepOut.completed true))
    ∧ (∀ (fs : FS) (sections : List String) (voice : String),
        n ≠ 0 → voice ≠ "" → o.synth n = ExtRes.failed →
        regenerate_section o sections n voice useRvc st fs =
          (fs, st, some st.generated_files, Status.synthFailedAt n))
    ∧ (∀ fs, o.synth n = ExtRes.failed →
        regenFromStep o useRvc n fs = (fs, StepOut.completed false)) := by
  refine ⟨?_, ?_, ?_, ?_, ?_⟩
  · intro fs hsy
    exact genStep_failed useRvc fs st hsy
  · intro fs
    simp only [genStep, cleanFiles_idem]
  · intro fs hsy ht
    exact contStep_failed_noRvc_stale fs st hsy ht
  · intro fs sections voice hn hv hsy
    simp only [regenerate_section, if_neg hn, if_neg hv]
    by_cases hs : (sections[(n - 1)]?).isSome = true
    · rw [if_pos hs, hsy]
    · rw [if_neg hs]
  · intro fs hsy
    unfold regenFromStep
    rw [hsy]

/-- Witness for the amended C7: on the same dirty directory and failing
synthesizer, the generate_audio step removes the stale temp file while
regenerate_section leaves it in place. -/
theorem precleanup_only_in_generate_witness :
    (genStep oFail false 1 fsDirty st0).1.temp 1 = false
    ∧ (regenerate_section oFail ["a"] 1 "af_heart" false st0
        fsDirty).1.temp 1 = true := by
  have h := precleanup_only_in_generate oFail false 1 st0
  constructor
  · rw [h.1 fsDirty rfl]
    exact cleanFiles_temp fsDirty 1
  · rw [h.2.2.2.1 fsDirty ["a"] "af_heart" (by decide) (by decide) rfl]
    rfl

/-- Claim C8: set_generated_files replaces the stored list and resets the
cursor to 0; get_current_audio returns the artifact at the cursor, or none
when the list is empty; next_audio and previous_audio move the cursor by
+1 / -1 modulo the list length — wrap-around, cursor never out of bounds —
and are no-ops returning none when the list is empty. -/
theorem playback_cursor_contract (p : AudioPlayer) (files : List String) :
    ((set_generated_files p files).generated_files = files
      ∧ (set_generated_files p files).current_audio_index = 0)
    ∧ (p.generated_files = [] →
        get_current_audio p = none ∧ next_audio p = (p, none)
        ∧ previous_audio p = (p, none))
    ∧ (∀ h : p.current_audio_index < p.generated_files.length,
        get_current_audio p =
          some (p.generated_files.get ⟨p.current_audio_index, h⟩)
        ∧ (next_audio p).1.current_audio_index =
            (p.current_audio_index + 1) % p.generated_files.length
        ∧ (previous_audio p).1.current_audio_index =
            (p.current_audio_index + p.generated_files.length - 1) %
              p.generated_files.length
        ∧ (next_audio p).1.current_audio_index < p.generated_files.length
        ∧ (previous_audio p).1.current_audio_index < p.generated_files.length
        ∧ (next_audio p).1.generated_files = p.generated_files
        ∧ (previous_audio p).1.generated_files = p.generated_files
        ∧ (next_audio p).2 = get_current_audio (next_audio p).1
        ∧ (previous_audio p).2 = get_current_audio (previous_audio p).1) := by
  refine ⟨⟨rfl, rfl⟩, ?_, ?_⟩
  · intro hemp
    have he : p.generated_files.isEmpty = true := by simp [hemp]
    refine ⟨?_, ?_, ?_⟩ <;>
      simp [get_current_audio, next_audio, previous_audio, he]
  · intro h
    have hne : p.generated_files ≠ [] := by
      intro hc
      rw [hc] at h
      cases h
    have he : p.generated_files.isEmpty = false := by
      simpa [List.isEmpty_iff] using hne
    have hpos : 0 < p.generated_files.length := List.length_pos.mpr hne
    have hn1 : (next_audio p).1.current_audio_index =
        (p.current_audio_index + 1) % p.generated_files.length := by
      simp [next_audio, he]
    have hp1 : (previous_audio p).1.current_audio_index =
        (p.current_audio_index + p.generated_files.length - 1) %
          p.generated_files.length := by
      simp [previous_audio, he]
    refine ⟨?_, hn1, hp1, ?_, ?_, ?_, ?_, ?_, ?_⟩
    · simp [get_current_audio, he, List.getElem?_eq_getElem h]
    · rw [hn1]
      exact Nat.mod_lt _ hpos
    · rw [hp1]
      exact Nat.mod_lt _ hpos
    · simp [next_audio, he]
    · simp [previous_audio, he]
    · simp [next_audio, he]
    · simp [previous_audio, he]

/-- Witness for C8 at a concrete input: a two-element list with the cursor
on the last entry wraps to the front on next_audio. -/
theorem playback_cursor_contract_witness :
    (1 : Nat) < (2 : Nat)
    ∧ (next_audio ⟨["a", "b"], 1, none⟩).1.current_audio_index = 0
    ∧ get_current_audio ⟨["a", "b"], 1, none⟩ = some "b" := by
  have h := (playback_cursor_contract ⟨["a", "b"], 1, none⟩ []).2.2
    (by decide)
  refine ⟨by decide, ?_, ?_⟩
  · rw [h.2.1]
    rfl
  · rw [h.1]
    rfl

/-- Claim C9: concatenation invoked with an empty artifact list or with the
active output directory unset returns a failure result — no output path, an
error message — rather than crashing or producing a file, and leaves the
file system unchanged. -/
theorem concatenate_empty_guard (exportOk : Bool) (p : AudioPlayer)
    (cfs : CatFS)
    (h : p.generated_files = [] ∨ p.current_output_dir = none) :
    concatenate_audio_files exportOk p cfs = (cfs, none, CatStatus.noFiles) := by
  have hc : (p.generated_files.isEmpty || p.current_output_dir.isNone) = true := by
    rcases h with h | h <;> simp [h]
  simp [concatenate_audio_files, hc]

/-- Witness for C9: a fresh player (no artifacts, no directory) yields the
no-files failure and an untouched directory. -/
theorem concatenate_empty_guard_witness :
    concatenate_audio_files true ⟨[], 0, none⟩ ⟨false, true⟩ =
      (⟨false, true⟩, none, CatStatus.noFiles) :=
  concatenate_empty_guard true ⟨[], 0, none⟩ ⟨false, true⟩ (Or.inl rfl)

/-- The file pattern as the claim reads it: a name of the exact shape
`section_<n>.wav` where `<n>` itself — everything between `section_` and
`.wav` — parses as an integer. -/
def claimSectionName (name : String) : Bool :=
  ("section_".data).isPrefixOf name.data
    && (".wav".data).isSuffixOf (name.data.drop 8)
    && (pyParseInt (String.mk ((name.data.drop 8).take
        ((name.data.drop 8).length - 4)))).isSome

/-- Every pair the listing scan collects carries the parse of its own name,
and a name taken from the filtered listing. -/
theorem mem_listing_pairs {listing : List String} {q : Int × String}
    (hq : q ∈ (listing.filter globSectionWav).filterMap fun name =>
      (parseSectionNum name).map fun k => (k, name)) :
    parseSectionNum q.2 = some q.1 ∧ q.2 ∈ listing.filter globSectionWav := by
  obtain ⟨a, ha, hfa⟩ := List.mem_filterMap.mp hq
  obtain ⟨k, hk, hkq⟩ := Option.map_eq_some'.mp hfa
  cases hkq
  exact ⟨hk, ha⟩

/-- Claim C10 (amended): listing existing audio files returns `[]` when the
directory is unset or missing; otherwise it returns exactly the directory
entries that match the glob `section_*.wav` AND where the second
`_`-separated token of the stem parses as an integer (so `section_1_old.wav` is
included, with number 1), ordered ascending by that parsed number with ties
broken by the name. -/
theorem existing_audio_listing :
    get_existing_audio_files none = []
    ∧ ∀ listing : List String,
        (∀ name ∈ get_existing_audio_files (some listing),
          name ∈ listing ∧ globSectionWav name = true
            ∧ (parseSectionNum name).isSome = true)
        ∧ (∀ name ∈ listing, globSectionWav name = true →
            (parseSectionNum name).isSome = true →
            name ∈ get_existing_audio_files (some listing))
        ∧ (get_existing_audio_files (some listing)).Pairwise
            (fun a b => pairLe ((parseSectionNum a).getD 0, a)
              ((parseSectionNum b).getD 0, b)) := by
  refine ⟨rfl, ?_⟩
  intro listing
  refine ⟨?_, ?_, ?_⟩
  · intro name hname
    simp only [get_existing_audio_files, List.mem_map] at hname
    obtain ⟨q, hq, rfl⟩ := hname
    have hqp := (List.perm_insertionSort pairLe _).mem_iff.mp hq
    obtain ⟨hparse, hglob⟩ := mem_listing_pairs hqp
    obtain ⟨hmem, hg⟩ := List.mem_filter.mp hglob
    exact ⟨hmem, hg, by rw [hparse]; rfl⟩
  · intro name hmem hglob hsome
    obtain ⟨k, hk⟩ := Option.isSome_iff_exists.mp hsome
    simp only [get_existing_audio_files, List.mem_map]
    refine ⟨(k, name), ?_, rfl⟩
    rw [(List.perm_insertionSort pairLe _).mem_iff]
    refine List.mem_filterMap.mpr ⟨name, List.mem_filter.mpr ⟨hmem, hglob⟩, ?_⟩
    rw [hk]
    rfl
  · have hs : List.Sorted pairLe (List.insertionSort pairLe
        ((listing.filter globSectionWav).filterMap fun name =>
          (parseSectionNum name).map fun k => (k, name))) :=
      List.sorted_insertionSort pairLe _
    simp only [get_existing_audio_files]
    rw [List.pairwise_map]
    refine List.Pairwise.imp_of_mem ?_ hs
    intro a b ha hb hab
    have hpa := (mem_listing_pairs
      ((List.perm_insertionSort pairLe _).mem_iff.mp ha)).1
    have hpb := (mem_listing_pairs
      ((List.perm_insertionSort pairLe _).mem_iff.mp hb)).1
    rw [hpa, hpb]
    simpa using hab

/-- Witness for the amended C10: numeric — not lexicographic — ordering on
a concrete directory listing, and membership of a parsed entry. -/
theorem existing_audio_listing_witness :
    "section_2.wav" ∈ get_existing_audio_files
        (some ["section_10.wav", "section_2.wav"])
    ∧ get_existing_audio_files (some ["section_10.wav", "section_2.wav"]) =
        ["section_2.wav", "section_10.wav"] := by
  have h := existing_audio_listing.2 ["section_10.wav", "section_2.wav"]
  exact ⟨h.2.1 "section_2.wav" (by decide) (by decide) (by decide),
    by decide⟩

/-- Claim C10 counterexample: `section_1_old.wav` does not have the shape
`section_<n>.wav` with an integer `<n>` (its `<n>` slot reads `1_old`), yet
the source keeps it — `int(file.stem.split('_')[1])` looks only at the token
between the first and second underscore — so it is returned rather than
silently skipped. -/
theorem existing_audio_pattern_counterexample :
    get_existing_audio_files (some ["section_1_old.wav"]) =
      ["section_1_old.wav"]
    ∧ claimSectionName "section_1_old.wav" = false
    ∧ globSectionWav "section_1_old.wav" = true := by
  refine ⟨by decide, by decide, by decide⟩

/-- Claim C4: SectionStore.load produces, in document order, exactly the
whitespace-trimmed non-empty chunks obtained by splitting the raw text on
blank-line boundaries (`"\n\n"`), dropping chunks that trim to empty;
re-invoking load discards all previous sections; every input containing a
non-whitespace character yields at least one section; the produced sequence
is an order-preserving subsequence of the stripped chunk sequence. -/
theorem load_sections_contract (t : String)
    (h : ∃ c ∈ t.data, pyIsSpace c = false) :
    1 ≤ (split_text t).length
    ∧ (∀ st : TTSState, (loadSections st t).1.sections = split_text t
        ∧ (loadSections st t).2 = (split_text t).length)
    ∧ (∀ st₁ st₂ : TTSState, (loadSections st₁ t).1 = (loadSections st₂ t).1)
    ∧ (∀ s ∈ split_text t, s ≠ "")
    ∧ (split_text t).Sublist
        ((splitNN t.data).map fun l => String.mk (pyStripL l))
    ∧ split_text "A\n\nB\n\nC" = ["A", "B", "C"] := by
  obtain ⟨c, hc, hw⟩ := h
  refine ⟨split_text_length_pos hc hw, fun st => ⟨rfl, rfl⟩,
    fun _ _ => rfl, ?_, ?_, by decide⟩
  · intro s hs
    unfold split_text at hs
    obtain ⟨l, hl, rfl⟩ := List.mem_map.mp hs
    have hne := (List.mem_filter.mp hl).2
    intro hnil
    have : l = [] := congrArg String.data hnil
    rw [this] at hne
    simp at hne
  · have hsub := (List.filter_sublist (p := fun l => !l.isEmpty)
      ((splitNN t.data).map pyStripL)).map String.mk
    simpa [split_text, List.map_map, Function.comp] using hsub

/-- Witness for C4 at a concrete input. -/
theorem load_sections_contract_witness :
    (∃ c ∈ ("A\n\nB\n\nC" : String).data, pyIsSpace c = false)
    ∧ 1 ≤ (split_text "A\n\nB\n\nC").length :=
  ⟨by decide, (load_sections_contract "A\n\nB\n\nC" (by decide)).1⟩

end QAM
